import Mathlib

set_option linter.unusedVariables false

/-!
Verification of the ClawdBody multi-provider VM provisioning orchestrator.

This file gives a shallow embedding of the provisioning code paths
(`src/lib/credit-reset.ts` AWSClient, `src/lib/orgo.ts` OrgoClient,
`packages/jarvis-sdk/src/adapters/OrgoAdapter.ts`, `src/lib/aws-vm-setup.ts`
AWSVMSetup, and the delete-computer route) and proves the spec claims
about them.  Effectful TypeScript methods are embedded as pure functions
over an explicit environment recording the outcome of each remote call,
together with a trace of the externally visible actions they perform.
-/

namespace Clawd

/-! ## JavaScript string primitives used by the sources -/

/-- `pat` is a prefix of `s` (character lists). -/
def startsWithChars : List Char → List Char → Bool
  | [], _ => true
  | _ :: _, [] => false
  | p :: ps, c :: cs => p == c && startsWithChars ps cs

/-- `pat` occurs contiguously somewhere in `s`. -/
def occursIn (pat : List Char) : List Char → Bool
  | [] => startsWithChars pat []
  | c :: cs => startsWithChars pat (c :: cs) || occursIn pat cs

/-- Model of JavaScript `String.prototype.includes`: the pattern occurs as a
contiguous substring. -/
def jsIncludes (s pat : String) : Bool :=
  occursIn pat.data s.data

/-- Model of JavaScript `String.prototype.toLowerCase` on one character
(ASCII range, which is the range the repository feeds it). -/
def toLowerChar (c : Char) : Char :=
  if 65 ≤ c.toNat ∧ c.toNat ≤ 90 then Char.ofNat (c.toNat + 32) else c

/-- Model of JavaScript `String.prototype.toLowerCase`. -/
def jsToLower (s : String) : String :=
  ⟨s.data.map toLowerChar⟩

/-- Model of JavaScript `String.prototype.substring(0, n)`. -/
def jsSubstringTo (n : Nat) (s : String) : String :=
  ⟨s.data.take n⟩

/-- JavaScript truthiness of an optional string (`undefined` and `""` are
falsy). -/
def optTruthy : Option String → Bool
  | some s => s ≠ ""
  | none => false

/-- Decimal digit character. -/
def digitChar (d : Nat) : Char := Char.ofNat (48 + d)

/-- Fuel-driven decimal printer (used so the kernel can evaluate it). -/
def natReprGo : Nat → Nat → List Char → List Char
  | 0, n, acc => digitChar n :: acc
  | fuel + 1, n, acc =>
    if n < 10 then digitChar n :: acc
    else natReprGo fuel (n / 10) (digitChar (n % 10) :: acc)

/-- Model of JavaScript number-to-string interpolation for naturals. -/
def natRepr (n : Nat) : String := ⟨natReprGo n n []⟩

/-! ## `sanitizeName` (src/lib/orgo.ts)

The source pipeline is: lowercase; replace each run of whitespace or
underscores by a hyphen; delete every character outside `[a-z0-9-]`;
collapse each run of hyphens to a single hyphen; delete one leading and one
trailing hyphen; truncate to 63 characters. -/

/-- Characters matched by the JavaScript regex class `[\s_]`. -/
def isSpaceUnderscore (c : Char) : Bool :=
  let n := c.toNat
  n = 9 || n = 10 || n = 11 || n = 12 || n = 13 || n = 32 ||
  n = 160 || n = 0x1680 || (0x2000 ≤ n && n ≤ 0x200a) || n = 0x2028 ||
  n = 0x2029 || n = 0x202f || n = 0x205f || n = 0x3000 || n = 0xfeff ||
  n = 95

/-- Characters matched by `[a-z0-9-]` (kept by the second replace). -/
def isAllowed (c : Char) : Bool :=
  let n := c.toNat
  (97 ≤ n && n ≤ 122) || (48 ≤ n && n ≤ 57) || n = 45

/-- The hyphen-run class `[-]` of the third replace. -/
def isHyphen (c : Char) : Bool := c == '-'

/-- `replace(/P+/g, '-')`: every maximal run of characters in class `p`
becomes a single hyphen.  `inRun` records whether the previous character was
in the class. -/
def replaceRunsAux (p : Char → Bool) : Bool → List Char → List Char
  | _, [] => []
  | inRun, c :: rest =>
    if p c then
      if inRun then replaceRunsAux p true rest
      else '-' :: replaceRunsAux p true rest
    else c :: replaceRunsAux p false rest

/-- `replace(/P+/g, '-')` from the start of the string. -/
def replaceRuns (p : Char → Bool) (l : List Char) : List Char :=
  replaceRunsAux p false l

/-- `replace(/^-|-$/g, '')`: drop one leading and one trailing hyphen. -/
def trimEdgeHyphens (l : List Char) : List Char :=
  let l1 := if l.head? = some '-' then l.tail else l
  if l1.getLast? = some '-' then l1.dropLast else l1

/-- The character pipeline of `sanitizeName`. -/
def sanitizeChars (l : List Char) : List Char :=
  (trimEdgeHyphens
    (replaceRuns isHyphen
      (List.filter isAllowed
        (replaceRuns isSpaceUnderscore (l.map toLowerChar))))).take 63

/-- `sanitizeName` from src/lib/orgo.ts. -/
def sanitizeName (s : String) : String :=
  ⟨sanitizeChars s.data⟩

/-- No two adjacent hyphens occur in the list. -/
def noAdjHyphen : List Char → Bool
  | c :: d :: rest => !(c == '-' && d == '-') && noAdjHyphen (d :: rest)
  | _ => true

/-! ## OrgoClient (src/lib/orgo.ts)

The HTTP layer is abstracted into an `OrgoEnv` recording the provider's
responses: the outcome of `listProjects` and, per project name, the outcome
of `listComputers` (as the list of computer names), together with the value
of `Date.now()`. -/

/-- A project as returned by the Orgo `/projects` endpoint. -/
structure OrgoProject where
  id : String
  name : String
deriving DecidableEq

/-- Provider responses observed by one `ensureUniqueComputerName` call. -/
structure OrgoEnv where
  /-- Outcome of `listProjects` (error message on failure). -/
  projects : Except String (List OrgoProject)
  /-- Outcome of `listComputers(projectName)`: the names of the computers. -/
  computers : String → Except String (List String)
  /-- Value of `Date.now()` at the timestamp-fallback point. -/
  now : Nat

namespace OrgoClient

/-- `OrgoClient.getProjectName` (src/lib/orgo.ts): resolve a project name
from an id, falling back to the provided name. -/
def getProjectName (env : OrgoEnv) (projectId : String)
    (projectName : Option String) : Except String String :=
  if projectId = "" then
    if optTruthy projectName then .ok (projectName.getD "")
    else .error "Either projectId or projectName must be provided"
  else
    match env.projects with
    | .error e => .error e
    | .ok ps =>
      match ps.find? (fun p => p.id = projectId) with
      | some p => .ok p.name
      | none =>
        if optTruthy projectName then .ok (projectName.getD "")
        else .error ("Project with ID " ++ projectId ++ " not found")

/-- The `while (existingNames.has(...) && counter < 1000)` loop of
`ensureUniqueComputerName`.  `existingLower` is the set of lowercased
existing names; the loop state is `(counter, uniqueName)`.  1000 fuel is
enough: the guard requires `counter < 1000` and each step increments
`counter`, so with `fuel + counter ≥ 1001` the fuel never runs out. -/
def resolveLoop (existingLower : List String) (base : String) :
    Nat → Nat → String → String × Nat
  | 0, counter, u => (u, counter)
  | fuel + 1, counter, u =>
    if existingLower.contains (jsToLower u) ∧ counter < 1000 then
      resolveLoop existingLower base fuel (counter + 1)
        (base ++ "-" ++ natRepr (counter + 1))
    else (u, counter)

/-- `OrgoClient.ensureUniqueComputerName` (src/lib/orgo.ts lines 256-300).
Any failure of the listing calls is caught and the desired name returned
unchanged. -/
def ensureUniqueComputerName (env : OrgoEnv) (projectId : String)
    (projectName : Option String) (desiredName : String) : String :=
  match getProjectName env projectId projectName with
  | .error _ => desiredName
  | .ok nameToUse =>
    match env.computers nameToUse with
    | .error _ => desiredName
    | .ok names =>
      let existingNames := names.map jsToLower
      if ¬ existingNames.contains (jsToLower desiredName) then desiredName
      else
        let baseName := jsSubstringTo 58 desiredName
        let r := resolveLoop existingNames baseName 1000 1
          (desiredName ++ "-" ++ natRepr 1)
        if r.2 ≥ 1000 then baseName ++ "-" ++ natRepr env.now
        else r.1

/-! ### `waitForReady` (src/lib/orgo.ts lines 377-430) -/

/-- Outcome of one `getComputer` poll: a status, or a thrown error
message. -/
inductive QueryResult where
  | ok (status : String)
  | err (message : String)

/-- The "not found" classification inside `waitForReady`. -/
def notFoundCheck (msg : String) : Bool :=
  jsIncludes msg "404" || jsIncludes (jsToLower msg) "not found"

/-- The terminal error message thrown when the consecutive "not found"
budget is exceeded (`MAX_NOT_FOUND_RETRIES = 10`). -/
def nfFailMsg (computerId : String) : String :=
  "Computer " ++
    (computerId ++ " not found after 10 attempts - it may have failed to create")

/-- Observable outcome of a `waitForReady` call: the returned status or
thrown message, the number of `getComputer` calls made, and the wall-clock
milliseconds elapsed when it returns. -/
structure WaitOutcome where
  result : Except String String
  queries : Nat
  elapsedMs : Nat

/-- The polling loop of `waitForReady`.  `remaining` counts loop iterations
left, `lastError`/`consecNF` mirror the source's `lastError` and
`consecutiveNotFoundErrors`, `elapsed` the wall clock, `q` the query
count. -/
def waitLoop (computerId : String) (query : Nat → QueryResult)
    (intervalMs : Nat) :
    Nat → Nat → Option String → Nat → Nat → Nat → WaitOutcome
  | 0, _, lastError, consecNF, elapsed, q =>
    match lastError with
    | some m =>
      if consecNF > 0 then ⟨.error m, q, elapsed⟩
      else ⟨.error "Computer did not become ready in time", q, elapsed⟩
    | none => ⟨.error "Computer did not become ready in time", q, elapsed⟩
  | remaining + 1, i, lastError, consecNF, elapsed, q =>
    match query i with
    | .ok status =>
      if status = "running" then ⟨.ok status, q + 1, elapsed⟩
      else
        waitLoop computerId query intervalMs remaining (i + 1) none 0
          (elapsed + intervalMs) (q + 1)
    | .err msg =>
      if notFoundCheck msg then
        if consecNF + 1 > 10 then
          ⟨.error (nfFailMsg computerId), q + 1, elapsed⟩
        else
          waitLoop computerId query intervalMs remaining (i + 1) (some msg)
            (consecNF + 1) (elapsed + intervalMs) (q + 1)
      else
        waitLoop computerId query intervalMs remaining (i + 1) (some msg)
          consecNF (elapsed + intervalMs) (q + 1)

/-- `OrgoClient.waitForReady`: initial 3000 ms grace delay, then up to
`maxAttempts` polls every `intervalMs` (defaults 30 and 2000). -/
def waitForReady (computerId : String) (query : Nat → QueryResult)
    (maxAttempts : Nat := 30) (intervalMs : Nat := 2000) : WaitOutcome :=
  waitLoop computerId query intervalMs maxAttempts 0 none 0 3000 0

end OrgoClient

namespace OrgoAdapter

/-- `OrgoAdapter.getProjectName`
(packages/jarvis-sdk/src/adapters/OrgoAdapter.ts). -/
def getProjectName (env : OrgoEnv) (projectId : String)
    (projectName : Option String) : Except String String :=
  if projectId = "" then
    if optTruthy projectName then .ok (projectName.getD "")
    else .error "Either projectId or projectName must be provided"
  else
    match env.projects with
    | .error e => .error e
    | .ok ps =>
      match ps.find? (fun p => p.id = projectId) with
      | some p => .ok p.name
      | none =>
        if optTruthy projectName then .ok (projectName.getD "")
        else .error ("Project with ID " ++ projectId ++ " not found")

/-- The bounded suffix-search loop of `OrgoAdapter.ensureUniqueComputerName`. -/
def resolveLoop (existingLower : List String) (base : String) :
    Nat → Nat → String → String × Nat
  | 0, counter, u => (u, counter)
  | fuel + 1, counter, u =>
    if existingLower.contains (jsToLower u) ∧ counter < 1000 then
      resolveLoop existingLower base fuel (counter + 1)
        (base ++ "-" ++ natRepr (counter + 1))
    else (u, counter)

/-- `OrgoAdapter.ensureUniqueComputerName`
(packages/jarvis-sdk/src/adapters/OrgoAdapter.ts lines 251-296). -/
def ensureUniqueComputerName (env : OrgoEnv) (projectId : String)
    (projectName : Option String) (desiredName : String) : String :=
  match getProjectName env projectId projectName with
  | .error _ => desiredName
  | .ok nameToUse =>
    match env.computers nameToUse with
    | .error _ => desiredName
    | .ok names =>
      let existingNames := names.map jsToLower
      if ¬ existingNames.contains (jsToLower desiredName) then desiredName
      else
        let baseName := jsSubstringTo 58 desiredName
        let r := resolveLoop existingNames baseName 1000 1
          (desiredName ++ "-" ++ natRepr 1)
        if r.2 ≥ 1000 then baseName ++ "-" ++ natRepr env.now
        else r.1

end OrgoAdapter

/-! ## AWSClient (src/lib/credit-reset.ts)

AWS SDK calls are abstracted into environments recording each call's
outcome.  A thrown AWS SDK error carries `name`, `Code`, `message` and a
nested `Error.Message`. -/

/-- A thrown AWS SDK error (`error.name`, `error.Code`, `error.message`,
`error.Error?.Message`; absent fields are modelled as `""`). -/
structure AwsError where
  name : String
  code : String
  message : String
  nested : String
deriving DecidableEq

/-- `error.message || error.Error?.Message || 'Not authorized for images'`
used when re-wrapping the original launch error. -/
def origErrMsg (e : AwsError) : String :=
  if e.message ≠ "" then e.message
  else if e.nested ≠ "" then e.nested
  else "Not authorized for images"

/-- The `isNotAuthorizedError` test in `createInstance`'s catch handler. -/
def isNotAuthorizedError (e : AwsError) : Bool :=
  e.code == "AuthFailure" &&
    (jsIncludes e.message "Not authorized for images" ||
      jsIncludes e.nested "Not authorized for images")

/-- Errors propagated out of `createInstance`: either a rethrown AWS error
or a freshly constructed `Error(message)`. -/
inductive CErr where
  | aws (e : AwsError)
  | mk (msg : String)
deriving DecidableEq

/-- Externally visible actions of `createInstance`. -/
inductive Act where
  /-- One sharing negotiation: `AWSClient.shareAMIWithAccount(ami, acct, ...)`. -/
  | share (ami acct : String)
  /-- One `RunInstancesCommand` launch attempt. -/
  | launch
  /-- One `DeleteKeyPairCommand` for the named key pair. -/
  | delKey (keyName : String)
  /-- One `CreateKeyPairCommand` for the named key pair. -/
  | createKey (keyName : String)
deriving DecidableEq

namespace AWSClient

/-- `AWSClient.shareAMIWithAccount` (src/lib/credit-reset.ts lines 188-218):
wraps `ModifyImageAttributeCommand`; an "already exists" or "already
authorized" failure counts as success. -/
def shareAMIWithAccount (amiId accountId : String)
    (modifyResult : Except AwsError Unit) : Except String Unit :=
  match modifyResult with
  | .ok _ => .ok ()
  | .error e =>
    if jsIncludes e.message "already exists" ||
        jsIncludes e.message "already authorized" then .ok ()
    else
      .error ("Failed to share AMI with account " ++ accountId ++ ": " ++
        e.message)

/-- Environment for one `createInstance` call: configuration read from the
process environment plus the outcome of every remote call it can make. -/
structure CreateEnv where
  /-- `process.env.CLAWDBODY_AWS_CUSTOM_AMI_ID` (`none` models unset or empty). -/
  customAmiId : Option String
  /-- `UBUNTU_AMIS[region]`. -/
  defaultAmi : Option String
  /-- Admin access key id after the fallback chain (`none` models falsy). -/
  adminAccessKeyId : Option String
  /-- Admin secret access key after the fallback chain. -/
  adminSecretAccessKey : Option String
  /-- Outcome of `this.getAccountId()` (same on every call in this run). -/
  accountId : Except String String
  /-- `ModifyImageAttributeCommand` outcome for the proactive pre-launch share. -/
  proactiveModify : Except AwsError Unit
  /-- `ModifyImageAttributeCommand` outcome for the share in the catch handler. -/
  catchModify : Except AwsError Unit
  /-- Outcome of `getOrCreateSecurityGroup()`. -/
  securityGroup : Except AwsError String
  /-- Outcome of `CreateKeyPairCommand` (the private key material). -/
  keyPair : Except AwsError String
  /-- `config.name`. -/
  instanceName : String
  /-- `Date.now()` used in the key pair name. -/
  now : Nat
  /-- Outcome of the first `RunInstancesCommand` (the instance id). -/
  firstLaunch : Except AwsError String
  /-- Outcome of the retried `RunInstancesCommand` after sharing. -/
  retryLaunch : Except AwsError String

/-- `this.getAccountId().catch(() => 'unknown')`. -/
def acctOrUnknown (env : CreateEnv) : String :=
  match env.accountId with
  | .ok a => a
  | .error _ => "unknown"

/-- Whether both admin credentials are configured
(`if (adminAccessKeyId && adminSecretAccessKey)`). -/
def haveAdminCreds (env : CreateEnv) : Bool :=
  env.adminAccessKeyId.isSome && env.adminSecretAccessKey.isSome

/-- The derived key pair name `clawdbot-${config.name}-${Date.now()}`. -/
def derivedKeyName (env : CreateEnv) : String :=
  "clawdbot-" ++ env.instanceName ++ "-" ++ natRepr env.now

/-- Actions of the proactive AMI-sharing block that runs before launch when
a custom AMI is configured (its failures are swallowed). -/
def proactiveActs (env : CreateEnv) (ami : String) : List Act :=
  match env.customAmiId with
  | none => []
  | some _ =>
    match env.accountId with
    | .error _ => []
    | .ok acct => if haveAdminCreds env then [.share ami acct] else []

/-- Error message thrown when admin credentials are not configured and the
launch hit "Not authorized for images". -/
def noAdminMsg (ami acct : String) (e : AwsError) : String :=
  "AMI " ++ ami ++ " is not accessible. " ++
  "Please ensure the AMI is shared with your AWS account (" ++ acct ++
  "), or configure CLAWDBODY_AWS_ACCESS_KEY_ID and " ++
  "CLAWDBODY_AWS_SECRET_ACCESS_KEY (or CLAWDBODY_AWS_ADMIN_*) for " ++
  "automatic sharing. Original error: " ++ origErrMsg e

/-- Error message thrown when the automatic share-and-retry block itself
failed with `shareMsg`. -/
def shareFailedMsg (ami shareMsg acct : String) (e : AwsError) : String :=
  "AMI " ++ ami ++ " is not accessible. " ++
  "Failed to automatically share AMI: " ++ shareMsg ++ ". " ++
  "Please ensure the AMI is manually shared with your AWS account (" ++
  acct ++ "). Original error: " ++ origErrMsg e

/-- `const ami = customAmiId || UBUNTU_AMIS[region]`. -/
def amiResolved (env : CreateEnv) : Option String :=
  match env.customAmiId with
  | some a => some a
  | none => env.defaultAmi

/-- `AWSClient.createInstance` (src/lib/credit-reset.ts lines 322-575),
from AMI resolution to launch (the post-launch wait and describe do not
affect the claims).  Returns the propagated result and the trace of
externally visible actions. -/
def createInstance (env : CreateEnv) : Except CErr String × List Act :=
  match amiResolved env with
  | none => (.error (.mk "No AMI found for region"), [])
  | some ami =>
    let pre := proactiveActs env ami
    match env.securityGroup with
    | .error e => (.error (.aws e), pre)
    | .ok _ =>
      let keyName := derivedKeyName env
      match env.keyPair with
      | .error e => (.error (.aws e), pre ++ [.delKey keyName])
      | .ok _ =>
        let acts := pre ++ [.delKey keyName, .createKey keyName]
        match env.firstLaunch with
        | .ok iid => (.ok iid, acts ++ [.launch])
        | .error e =>
          let acts0 := acts ++ [.launch]
          if isNotAuthorizedError e && env.customAmiId.isSome then
            if haveAdminCreds env then
              match env.accountId with
              | .error gmsg =>
                (.error (.mk (shareFailedMsg ami gmsg (acctOrUnknown env) e)),
                  acts0)
              | .ok acct =>
                match shareAMIWithAccount ami acct env.catchModify with
                | .error smsg =>
                  (.error (.mk (shareFailedMsg ami smsg (acctOrUnknown env) e)),
                    acts0 ++ [.share ami acct])
                | .ok _ =>
                  match env.retryLaunch with
                  | .ok iid => (.ok iid, acts0 ++ [.share ami acct, .launch])
                  | .error re =>
                    (.error (.mk (shareFailedMsg ami re.message
                        (acctOrUnknown env) e)),
                      acts0 ++ [.share ami acct, .launch])
            else
              (.error (.mk (noAdminMsg ami (acctOrUnknown env) e)), acts0)
          else
            (.error (.aws e), acts0 ++ [.delKey keyName])

/-- The suffix of a trace strictly after the first launch attempt. -/
def afterFirstLaunch : List Act → List Act
  | [] => []
  | .launch :: rest => rest
  | _ :: rest => afterFirstLaunch rest

/-- Number of sharing negotiations in a trace. -/
def shareCount (l : List Act) : Nat :=
  l.countP (fun a => match a with | .share _ _ => true | _ => false)

/-- Number of launch attempts in a trace. -/
def launchCount (l : List Act) : Nat :=
  l.countP (fun a => match a with | .launch => true | _ => false)

/-! ### `getOrCreateSecurityGroup` (src/lib/credit-reset.ts lines 241-298) -/

/-- One entry of the `IpPermissions` array. -/
structure IpRule where
  protocol : String
  fromPort : Nat
  toPort : Nat
  cidr : String
  description : String
deriving DecidableEq

/-- Security-group API actions.  The source has no
`AuthorizeSecurityGroupEgressCommand` call at all; the only rule
authorization is the single ingress call. -/
inductive SgAct where
  | authorizeIngress (rules : List IpRule)
deriving DecidableEq

/-- Environment of one `getOrCreateSecurityGroup` call. -/
structure SgEnv where
  /-- Outcome of `DescribeSecurityGroupsCommand`: existing group ids of the
  derived name (a thrown error is caught and treated as "does not exist"). -/
  describeResult : Except AwsError (List String)
  /-- `DescribeVpcsCommand`: the default VPC id, if any. -/
  defaultVpc : Option String
  /-- Outcome of `CreateSecurityGroupCommand` (the new group id). -/
  createResult : Except AwsError String
  /-- Outcome of `AuthorizeSecurityGroupIngressCommand`. -/
  authorizeResult : Except AwsError Unit

/-- The `IpPermissions` passed to the single
`AuthorizeSecurityGroupIngressCommand` call, verbatim from the source:
port 22 described "SSH access" and port 443 described "HTTPS outbound",
both inside the ingress call. -/
def ingressRules : List IpRule :=
  [⟨"tcp", 22, 22, "0.0.0.0/0", "SSH access"⟩,
   ⟨"tcp", 443, 443, "0.0.0.0/0", "HTTPS outbound"⟩]

/-- `AWSClient.getOrCreateSecurityGroup`. -/
def getOrCreateSecurityGroup (env : SgEnv) :
    Except CErr String × List SgAct :=
  match env.describeResult with
  | .ok (g :: _) => (.ok g, [])
  | _ =>
    match env.defaultVpc with
    | none =>
      (.error (.mk
        "No default VPC found. Please create one in AWS or specify a VPC ID."),
        [])
    | some _ =>
      match env.createResult with
      | .error e => (.error (.aws e), [])
      | .ok groupId =>
        match env.authorizeResult with
        | .error e => (.error (.aws e), [.authorizeIngress ingressRules])
        | .ok _ => (.ok groupId, [.authorizeIngress ingressRules])

/-! ### `terminateInstanceWithCleanup` (src/lib/credit-reset.ts lines 670-708) -/

/-- The fields of a described instance used by the cleanup. -/
structure InstanceInfo where
  keyName : Option String
deriving DecidableEq

/-- Environment of one `terminateInstanceWithCleanup` call. -/
structure TermEnv where
  /-- Outcome of `this.getInstance(instanceId)`. -/
  getInstanceResult : Except AwsError InstanceInfo
  /-- Outcome of `TerminateInstancesCommand`. -/
  terminateResult : Except AwsError Unit
  /-- Outcome of `DeleteKeyPairCommand`. -/
  deleteKeyResult : Except AwsError Unit

/-- The structured result returned by `terminateInstanceWithCleanup`. -/
structure TermResult where
  terminated : Bool
  keyPairDeleted : Bool
  errors : List String
deriving DecidableEq

/-- `AWSClient.terminateInstanceWithCleanup`: every remote call is wrapped
in its own try/catch, so the method returns a `TermResult` for every
environment; a `DeleteKeyPairCommand` failure named
`InvalidKeyPair.NotFound` is treated as "already deleted". -/
def terminateInstanceWithCleanup (env : TermEnv) :
    Except AwsError TermResult :=
  let step1 : Option String × List String :=
    match env.getInstanceResult with
    | .ok inst => (inst.keyName, [])
    | .error e => (none, ["Failed to get instance details: " ++ e.message])
  let step2 : Bool × List String :=
    match env.terminateResult with
    | .ok _ => (true, [])
    | .error e => (false, ["Failed to terminate instance: " ++ e.message])
  let step3 : Bool × List String :=
    match step1.1 with
    | none => (false, [])
    | some _ =>
      match env.deleteKeyResult with
      | .ok _ => (true, [])
      | .error e =>
        if e.name ≠ "InvalidKeyPair.NotFound" then
          (false, ["Failed to delete key pair: " ++ e.message])
        else (true, [])
  .ok ⟨step2.1, step3.1, step1.2 ++ step2.2 ++ step3.2⟩

end AWSClient

/-! ## AWSVMSetup.runCommand (src/lib/aws-vm-setup.ts lines 99-141) -/

namespace AWSVMSetup

/-- Externally visible actions of `runCommand`. -/
inductive SshAct where
  /-- One `connectSSH()` connection attempt. -/
  | connect
  /-- One `disconnectSSH()`. -/
  | disconnect
  /-- One backoff sleep of the given milliseconds. -/
  | wait (ms : Nat)
  /-- One `onProgress` callback reporting success or failure. -/
  | progress (success : Bool)
deriving DecidableEq

/-- The result returned by `runCommand`. -/
structure CmdResult where
  output : String
  success : Bool
deriving DecidableEq

/-- The connection-level error test: the thrown message mentions
`ECONNREFUSED`, `ETIMEDOUT` or `SSH`. -/
def isConnErr (msg : String) : Bool :=
  jsIncludes msg "ECONNREFUSED" || jsIncludes msg "ETIMEDOUT" ||
    jsIncludes msg "SSH"

/-- The attempt loop of `runCommand`.  `oracle n` is the outcome of attempt
`n` (connect + execute): a thrown message, or the command's output and exit
code.  `fuel` is `retries + 1 - attempt`; the base case models the code
after the loop. -/
def runCommandAux (oracle : Nat → Except String (String × Int))
    (retries : Nat) : Nat → Nat → Option String → CmdResult × List SshAct
  | 0, _, lastErr => (⟨lastErr.getD "Unknown error", false⟩, [])
  | fuel + 1, attempt, _ =>
    match oracle attempt with
    | .ok (out, code) =>
      let succ := code = 0
      (⟨out, succ⟩, [.connect, .progress succ])
    | .error msg =>
      if attempt < retries ∧ isConnErr msg then
        let waitTime := (attempt + 1) * 5000
        let rest := runCommandAux oracle retries fuel (attempt + 1) (some msg)
        (rest.1, [.connect, .disconnect, .wait waitTime] ++ rest.2)
      else (⟨msg, false⟩, [.connect, .progress false])

/-- `AWSVMSetup.runCommand` with its bounded retry budget
(default `retries = 2`). -/
def runCommand (oracle : Nat → Except String (String × Int))
    (retries : Nat := 2) : CmdResult × List SshAct :=
  runCommandAux oracle retries (retries + 1) 0 none

end AWSVMSetup

/-! ## The delete-computer route (POST handler) -/

/-- The persisted `SetupState` row (the Provisioning Record). -/
structure SetupState where
  vmProvider : Option String
  orgoComputerId : Option String
  orgoProjectId : Option String
  orgoComputerUrl : Option String
  orgoApiKey : Option String
  awsAccessKeyId : Option String
  awsSecretAccessKey : Option String
  awsRegion : Option String
  awsInstanceId : Option String
  awsInstanceName : Option String
  awsPublicIp : Option String
  awsPrivateKey : Option String
  status : String
  vmStatus : Option String
  vmCreated : Bool
  repoCreated : Bool
  repoCloned : Bool
  gitSyncConfigured : Bool
  clawdbotInstalled : Bool
  telegramConfigured : Bool
  gatewayStarted : Bool
  errorMessage : Option String
deriving DecidableEq

namespace DeleteComputerRoute

/-- Environment of one POST to the delete-computer route. -/
structure RouteEnv where
  /-- `session?.user?.id`. -/
  sessionUserId : Option String
  /-- The stored `SetupState` row for that user, if any. -/
  state : Option SetupState
  /-- `process.env.ORGO_API_KEY`. -/
  envOrgoApiKey : Option String
  /-- Outcome of `orgoClient.deleteComputer(...)` (error message on throw). -/
  orgoDelete : Except String Unit
  /-- Outcome of `awsClient.terminateInstance(...)`. -/
  awsTerminate : Except String Unit

/-- The JSON response and the stored state after the request. -/
structure RouteOutcome where
  httpStatus : Nat
  success : Bool
  finalState : Option SetupState

/-- `setupState?.vmProvider || 'orgo'`. -/
def providerOf (env : RouteEnv) : String :=
  match env.state with
  | some st => match st.vmProvider with
    | some p => if p ≠ "" then p else "orgo"
    | none => "orgo"
  | none => "orgo"

/-- The raw-SQL reset of the AWS branch: status to `pending`, AWS resource
identifiers nulled, every step flag cleared, error cleared. -/
def awsReset (st : SetupState) : SetupState :=
  { st with
    status := "pending"
    awsInstanceId := none
    awsInstanceName := none
    awsPublicIp := none
    awsPrivateKey := none
    vmStatus := none
    vmCreated := false
    repoCreated := false
    repoCloned := false
    gitSyncConfigured := false
    clawdbotInstalled := false
    telegramConfigured := false
    gatewayStarted := false
    errorMessage := none }

/-- The Prisma update of the Orgo branch: status to `pending`, Orgo resource
identifiers nulled, every step flag cleared, error cleared. -/
def orgoReset (st : SetupState) : SetupState :=
  { st with
    status := "pending"
    orgoProjectId := none
    orgoComputerId := none
    orgoComputerUrl := none
    vmStatus := none
    vmCreated := false
    repoCreated := false
    repoCloned := false
    gitSyncConfigured := false
    clawdbotInstalled := false
    telegramConfigured := false
    gatewayStarted := false
    errorMessage := none }

/-- Whether the provider reported the resource as already gone in the Orgo
branch (`errorMessage.includes('404') || ... 'not found' || ...
'Computer not found'`). -/
def orgoNotFound (msg : String) : Bool :=
  jsIncludes msg "404" || jsIncludes msg "not found" ||
    jsIncludes msg "Computer not found"

/-- The AWS branch's already-terminated test. -/
def awsNotFound (msg : String) : Bool :=
  jsIncludes msg "not found" || jsIncludes msg "InvalidInstanceID"

/-- The delete-computer POST handler.  The provider delete call sits in a
try/catch whose both arms continue to the state reset: a "not found"
deletion error is logged as "already deleted, continuing with state
reset"; any other error is logged as "will still reset state". -/
def handler (env : RouteEnv) : RouteOutcome :=
  match env.sessionUserId with
  | none => ⟨401, false, env.state⟩
  | some _ =>
    if providerOf env = "aws" then
      match env.state with
      | none => ⟨404, false, none⟩
      | some st =>
        if ¬ optTruthy st.awsInstanceId then ⟨404, false, some st⟩
        else if ¬ (optTruthy st.awsAccessKeyId ∧
            optTruthy st.awsSecretAccessKey) then ⟨500, false, some st⟩
        else
          match env.awsTerminate with
          | .ok _ => ⟨200, true, some (awsReset st)⟩
          | .error msg =>
            if awsNotFound msg then ⟨200, true, some (awsReset st)⟩
            else ⟨200, true, some (awsReset st)⟩
    else
      match env.state with
      | none => ⟨404, false, none⟩
      | some st =>
        if ¬ optTruthy st.orgoComputerId then ⟨404, false, some st⟩
        else
          let apiKey := match st.orgoApiKey with
            | some k => if k ≠ "" then some k else env.envOrgoApiKey
            | none => env.envOrgoApiKey
          if ¬ optTruthy apiKey then ⟨500, false, some st⟩
          else
            match env.orgoDelete with
            | .ok _ => ⟨200, true, some (orgoReset st)⟩
            | .error msg =>
              if orgoNotFound msg then ⟨200, true, some (orgoReset st)⟩
              else ⟨200, true, some (orgoReset st)⟩

/-- All step-completion flags of a record are cleared. -/
def flagsCleared (st : SetupState) : Prop :=
  st.vmCreated = false ∧ st.repoCreated = false ∧ st.repoCloned = false ∧
  st.gitSyncConfigured = false ∧ st.clawdbotInstalled = false ∧
  st.telegramConfigured = false ∧ st.gatewayStarted = false

end DeleteComputerRoute

/-! ## Concrete inputs used by counterexamples and witnesses -/

/-- A project whose computers are named `bot`, `bot-1`, ..., `bot-999`:
enough collisions to exhaust the bounded numeric suffix search. -/
def exNames : List String :=
  "bot" :: (List.range 999).map (fun i => "bot-" ++ natRepr (i + 1))

/-- Provider responses for the exhaustion scenario; the clock reads 7, so
the timestamp fallback produces `bot-7`, which already exists. -/
def exEnv : OrgoEnv :=
  ⟨.ok [], fun pn => if pn = "proj" then .ok exNames else .error "no project",
    7⟩

/-- A small collision scenario: `bot` and `bot-1` exist. -/
def smallEnv : OrgoEnv :=
  ⟨.ok [], fun pn => if pn = "proj" then .ok ["bot", "bot-1"]
    else .error "no project", 42⟩

/-- The original launch error for the not-authorized scenarios. -/
def notAuthErr : AwsError :=
  ⟨"", "AuthFailure", "Not authorized for images", ""⟩

/-- `createInstance` environment: custom AMI, admin credentials configured,
first launch rejected with "Not authorized for images", retry succeeds. -/
def c1Env : AWSClient.CreateEnv :=
  { customAmiId := some "ami-0abc"
    defaultAmi := some "ami-ubuntu"
    adminAccessKeyId := some "AKIAADMIN"
    adminSecretAccessKey := some "adminsecret"
    accountId := .ok "111122223333"
    proactiveModify := .ok ()
    catchModify := .ok ()
    securityGroup := .ok "sg-1"
    keyPair := .ok "PRIVATE-KEY"
    instanceName := "mybot"
    now := 5
    firstLaunch := .error notAuthErr
    retryLaunch := .ok "i-0123" }

/-- `createInstance` environment: launch fails with an unrelated capacity
error, so the key pair must be cleaned up. -/
def c6Env : AWSClient.CreateEnv :=
  { customAmiId := none
    defaultAmi := some "ami-ubuntu"
    adminAccessKeyId := none
    adminSecretAccessKey := none
    accountId := .ok "111122223333"
    proactiveModify := .ok ()
    catchModify := .ok ()
    securityGroup := .ok "sg-1"
    keyPair := .ok "PRIVATE-KEY"
    instanceName := "mybot"
    now := 5
    firstLaunch := .error ⟨"", "InsufficientInstanceCapacity",
      "Insufficient capacity.", ""⟩
    retryLaunch := .ok "i-0123" }

/-- Second `terminateInstanceWithCleanup` call right after a successful
first one: terminating again succeeds (EC2 termination is idempotent) and
the key pair is already gone. -/
def c4Env : AWSClient.TermEnv :=
  { getInstanceResult := .ok ⟨some "clawdbot-mybot-5"⟩
    terminateResult := .ok ()
    deleteKeyResult := .error ⟨"InvalidKeyPair.NotFound", "",
      "The key pair does not exist", ""⟩ }

/-- SSH attempt oracle: connection refused twice, then success. -/
def c7Oracle : Nat → Except String (String × Int)
  | 0 => .error "SSH connection failed: connect ECONNREFUSED"
  | 1 => .error "SSH connection failed: ETIMEDOUT"
  | _ => .ok ("installed", 0)

/-- A provisioning record mid-flight on the Orgo provider. -/
def c8OrgoState : SetupState :=
  { vmProvider := some "orgo"
    orgoComputerId := some "comp-1"
    orgoProjectId := some "proj-1"
    orgoComputerUrl := some "https://example.invalid"
    orgoApiKey := some "sk-orgo"
    awsAccessKeyId := none
    awsSecretAccessKey := none
    awsRegion := none
    awsInstanceId := none
    awsInstanceName := none
    awsPublicIp := none
    awsPrivateKey := none
    status := "running"
    vmStatus := some "running"
    vmCreated := true
    repoCreated := true
    repoCloned := true
    gitSyncConfigured := true
    clawdbotInstalled := true
    telegramConfigured := true
    gatewayStarted := true
    errorMessage := some "old error" }

/-- Route environment: the provider reports the computer as already gone. -/
def c8Env : DeleteComputerRoute.RouteEnv :=
  { sessionUserId := some "user-1"
    state := some c8OrgoState
    envOrgoApiKey := none
    orgoDelete := .error "Computer not found"
    awsTerminate := .ok () }

/-! # Theorems -/

/-! ## General helper lemmas -/

theorem occursIn_append (pat a b : List Char) (h : occursIn pat b = true) :
    occursIn pat (a ++ b) = true := by
  induction a with
  | nil => simpa using h
  | cons c cs ih =>
    simp only [List.cons_append, occursIn, Bool.or_eq_true]
    exact Or.inr ih

theorem strData (s t : String) : (s ++ t).data = s.data ++ t.data := by
  cases s; cases t; rfl

theorem containsOfMem {a : String} {l : List String} (h : a ∈ l) :
    l.contains a = true :=
  List.elem_eq_true_of_mem h

theorem memOfContains {a : String} {l : List String}
    (h : l.contains a = true) : a ∈ l :=
  List.mem_of_elem_eq_true h

theorem optTruthySome {o : Option String} (h : optTruthy o = true) :
    ∃ s, o = some s ∧ s ≠ "" := by
  cases o with
  | none => simp [optTruthy] at h
  | some s => exact ⟨s, rfl, by simpa [optTruthy] using h⟩

/-! ## C5 — security-group rules (code bug) -/

/-- C5: with no pre-existing security group and a default VPC present, the
creation path of `getOrCreateSecurityGroup` performs exactly one rule
authorization, an `AuthorizeSecurityGroupIngressCommand` whose
`IpPermissions` contain, besides the SSH port-22 rule, a port-443 rule
(described "HTTPS outbound" in the source but sent inside the ingress
call), so the authorized inbound rules are not limited to port 22. -/
theorem c5_securityGroup_ingress_443 :
    (AWSClient.getOrCreateSecurityGroup
        ⟨.ok [], some "vpc-1", .ok "sg-1", .ok ()⟩).2
      = [.authorizeIngress AWSClient.ingressRules] ∧
    (⟨"tcp", 443, 443, "0.0.0.0/0", "HTTPS outbound"⟩ : AWSClient.IpRule)
      ∈ AWSClient.ingressRules ∧
    ¬ (∀ r ∈ AWSClient.ingressRules, r.fromPort = 22) := by
  refine ⟨rfl, by decide, fun h => ?_⟩
  exact absurd
    (h ⟨"tcp", 443, 443, "0.0.0.0/0", "HTTPS outbound"⟩ (by decide))
    (by decide)

/-! ## C7 — SSH retry with linear backoff -/

/-- C7: a command whose first two attempts fail with connection-level
errors and whose third attempt succeeds with exit code 0 returns a
successful result, with a full disconnect and a 5000 ms wait after the
first failure and a disconnect and a 10000 ms wait after the second. -/
theorem c7_runCommand_backoff (oracle : Nat → Except String (String × Int))
    (out m0 m1 : String)
    (h0 : oracle 0 = .error m0) (hc0 : AWSVMSetup.isConnErr m0 = true)
    (h1 : oracle 1 = .error m1) (hc1 : AWSVMSetup.isConnErr m1 = true)
    (h2 : oracle 2 = .ok (out, 0)) :
    AWSVMSetup.runCommand oracle =
      (⟨out, true⟩,
       [.connect, .disconnect, .wait 5000, .connect, .disconnect,
        .wait 10000, .connect, .progress true]) := by
  simp [AWSVMSetup.runCommand, AWSVMSetup.runCommandAux, h0, h1, h2,
    hc0, hc1]

/-- Witness for C7 at a concrete oracle. -/
theorem c7_runCommand_backoff_witness :
    AWSVMSetup.runCommand c7Oracle =
      (⟨"installed", true⟩,
       [.connect, .disconnect, .wait 5000, .connect, .disconnect,
        .wait 10000, .connect, .progress true]) :=
  c7_runCommand_backoff c7Oracle "installed"
    "SSH connection failed: connect ECONNREFUSED"
    "SSH connection failed: ETIMEDOUT"
    rfl (by decide) rfl (by decide) rfl

/-! ## C4 — terminateInstanceWithCleanup never throws, is idempotent -/

/-- C4: `terminateInstanceWithCleanup` returns a structured result for
every environment (every remote call is individually caught); and a second
identical call made after a successful cleanup — where termination still
succeeds and deleting the key pair now fails with
`InvalidKeyPair.NotFound` — reports the instance terminated and the key
pair deleted, with no errors, rather than raising. -/
theorem c4_terminate_cleanup_idempotent (env env2 : AWSClient.TermEnv)
    (hget : ∃ k, env2.getInstanceResult = .ok ⟨some k⟩)
    (hterm : env2.terminateResult = .ok ())
    (hdel : ∃ e, env2.deleteKeyResult = .error e ∧
      e.name = "InvalidKeyPair.NotFound") :
    (∃ r, AWSClient.terminateInstanceWithCleanup env = .ok r) ∧
    AWSClient.terminateInstanceWithCleanup env2 = .ok ⟨true, true, []⟩ := by
  constructor
  · exact ⟨_, rfl⟩
  · obtain ⟨k, hk⟩ := hget
    obtain ⟨e, he, hn⟩ := hdel
    simp [AWSClient.terminateInstanceWithCleanup, hk, hterm, he, hn]

/-- Witness for C4: the second call after a successful first cleanup. -/
theorem c4_terminate_cleanup_idempotent_witness :
    (∃ r, AWSClient.terminateInstanceWithCleanup c4Env = .ok r) ∧
    AWSClient.terminateInstanceWithCleanup c4Env = .ok ⟨true, true, []⟩ :=
  c4_terminate_cleanup_idempotent c4Env c4Env
    ⟨"clawdbot-mybot-5", rfl⟩ rfl
    ⟨⟨"InvalidKeyPair.NotFound", "", "The key pair does not exist", ""⟩,
      rfl, rfl⟩

/-! ## C8 — teardown resets the record and tolerates "already gone" -/

open DeleteComputerRoute in
/-- C8: with a session and a stored record, the delete-computer handler —
in the branch for the record's provider, with the resource id and
credentials present — responds 200/success and stores the reset record
(status `pending`, every step flag cleared, the provider's resource
identifiers nulled) even when the provider delete call failed with a
"not found" error. -/
theorem c8_teardown_reset (env : RouteEnv) (u : String) (st : SetupState)
    (m : String)
    (hs : env.sessionUserId = some u) (hst : env.state = some st) :
    (providerOf env ≠ "aws" →
      optTruthy st.orgoComputerId = true →
      optTruthy st.orgoApiKey = true →
      env.orgoDelete = .error m → orgoNotFound m = true →
      handler env = ⟨200, true, some (orgoReset st)⟩ ∧
      (orgoReset st).status = "pending" ∧
      flagsCleared (orgoReset st) ∧
      (orgoReset st).orgoComputerId = none ∧
      (orgoReset st).orgoProjectId = none ∧
      (orgoReset st).orgoComputerUrl = none ∧
      (orgoReset st).errorMessage = none) ∧
    (providerOf env = "aws" →
      optTruthy st.awsInstanceId = true →
      optTruthy st.awsAccessKeyId = true →
      optTruthy st.awsSecretAccessKey = true →
      env.awsTerminate = .error m → awsNotFound m = true →
      handler env = ⟨200, true, some (awsReset st)⟩ ∧
      (awsReset st).status = "pending" ∧
      flagsCleared (awsReset st) ∧
      (awsReset st).awsInstanceId = none ∧
      (awsReset st).awsInstanceName = none ∧
      (awsReset st).awsPublicIp = none ∧
      (awsReset st).awsPrivateKey = none ∧
      (awsReset st).errorMessage = none) := by
  constructor
  · intro hprov hid hkey hdel hnf
    obtain ⟨k, hk, hkne⟩ := optTruthySome hkey
    refine ⟨?_, rfl, ⟨rfl, rfl, rfl, rfl, rfl, rfl, rfl⟩, rfl, rfl, rfl, rfl⟩
    have hks : optTruthy (some k) = true := by simp [optTruthy, hkne]
    simp [handler, hs, hst, hprov, hid, hk, hkne, hdel, hnf, hks]
  · intro hprov hid hak hsk hdel hnf
    refine ⟨?_, rfl, ⟨rfl, rfl, rfl, rfl, rfl, rfl, rfl⟩, rfl, rfl, rfl, rfl, rfl⟩
    simp [handler, hs, hst, hprov, hid, hak, hsk, hdel, hnf]

open DeleteComputerRoute in
/-- Witness for C8: Orgo provider, delete reports "Computer not found". -/
theorem c8_teardown_reset_witness :
    handler c8Env = ⟨200, true, some (orgoReset c8OrgoState)⟩ ∧
    (orgoReset c8OrgoState).status = "pending" ∧
    flagsCleared (orgoReset c8OrgoState) ∧
    (orgoReset c8OrgoState).orgoComputerId = none ∧
    (orgoReset c8OrgoState).orgoProjectId = none ∧
    (orgoReset c8OrgoState).orgoComputerUrl = none ∧
    (orgoReset c8OrgoState).errorMessage = none :=
  (c8_teardown_reset c8Env "user-1" c8OrgoState "Computer not found"
    rfl rfl).1 (by decide) rfl rfl rfl (by decide)

/-! ## Substring lemmas for the interpolated error messages -/

theorem startsWith_extend (pat l y : List Char)
    (h : startsWithChars pat l = true) :
    startsWithChars pat (l ++ y) = true := by
  induction pat generalizing l with
  | nil => rfl
  | cons p ps ih =>
    cases l with
    | nil => simp [startsWithChars] at h
    | cons c cs =>
      simp only [startsWithChars, Bool.and_eq_true] at h
      simp only [List.cons_append, startsWithChars, Bool.and_eq_true]
      exact ⟨h.1, ih cs h.2⟩

theorem occursIn_nil_pat (l : List Char) : occursIn [] l = true := by
  cases l <;> simp [occursIn, startsWithChars]

theorem occursIn_append_left (pat x y : List Char)
    (h : occursIn pat x = true) : occursIn pat (x ++ y) = true := by
  induction x with
  | nil =>
    cases pat with
    | nil => exact occursIn_nil_pat _
    | cons p ps => simp [occursIn, startsWithChars] at h
  | cons c cs ih =>
    simp only [occursIn, Bool.or_eq_true] at h
    simp only [List.cons_append, occursIn, Bool.or_eq_true]
    rcases h with h | h
    · exact Or.inl (startsWith_extend _ _ _ h)
    · exact Or.inr (ih h)

theorem jsIncludes_left (x y pat : String) (h : jsIncludes x pat = true) :
    jsIncludes (x ++ y) pat = true := by
  unfold jsIncludes at h ⊢
  rw [strData]
  exact occursIn_append_left _ _ _ h

theorem jsIncludes_right (x y pat : String) (h : jsIncludes y pat = true) :
    jsIncludes (x ++ y) pat = true := by
  unfold jsIncludes at h ⊢
  rw [strData]
  exact occursIn_append _ _ _ h

open AWSClient in
theorem noAdminMsg_descriptive (a acct : String) (e : AwsError) :
    jsIncludes (noAdminMsg a acct e) "is not accessible" = true ∧
    jsIncludes (noAdminMsg a acct e) "or configure" = true := by
  unfold noAdminMsg
  constructor
  · apply jsIncludes_left
    apply jsIncludes_left
    apply jsIncludes_left
    apply jsIncludes_left
    apply jsIncludes_left
    apply jsIncludes_left
    apply jsIncludes_right
    decide
  · apply jsIncludes_left
    apply jsIncludes_left
    apply jsIncludes_left
    apply jsIncludes_right
    decide

/-! ## C1 — one sharing negotiation, one launch retry -/

theorem afterFirstLaunch_share (x y : String) (l : List Act) :
    AWSClient.afterFirstLaunch (.share x y :: l)
      = AWSClient.afterFirstLaunch l := rfl

theorem afterFirstLaunch_delKey (k : String) (l : List Act) :
    AWSClient.afterFirstLaunch (.delKey k :: l)
      = AWSClient.afterFirstLaunch l := rfl

theorem afterFirstLaunch_createKey (k : String) (l : List Act) :
    AWSClient.afterFirstLaunch (.createKey k :: l)
      = AWSClient.afterFirstLaunch l := rfl

theorem afterFirstLaunch_launch (l : List Act) :
    AWSClient.afterFirstLaunch (.launch :: l) = l := rfl

open AWSClient in
/-- C1: when the first launch of a configured custom AMI fails with the
"Not authorized for images" authorization error, then (a) with admin
credentials configured and the sharing grant succeeding, the trace after
the failed launch holds exactly one sharing negotiation followed by exactly
one retried launch, and the call's result is the retry's result; (b) with
admin credentials not configured, no retry happens and the call fails with
the descriptive, actionable configuration message. -/
theorem c1_share_retry_once (env : CreateEnv) (a acct : String)
    (e : AwsError)
    (hcustom : env.customAmiId = some a)
    (hsg : ∃ g, env.securityGroup = .ok g)
    (hkp : ∃ k, env.keyPair = .ok k)
    (hfail : env.firstLaunch = .error e)
    (hnauth : isNotAuthorizedError e = true) :
    (haveAdminCreds env = true → env.accountId = .ok acct →
      shareAMIWithAccount a acct env.catchModify = .ok () →
      (createInstance env).2 =
        [.share a acct, .delKey (derivedKeyName env),
         .createKey (derivedKeyName env), .launch, .share a acct, .launch] ∧
      shareCount (afterFirstLaunch (createInstance env).2) = 1 ∧
      launchCount (afterFirstLaunch (createInstance env).2) = 1 ∧
      (createInstance env).1 =
        (match env.retryLaunch with
         | .ok iid => .ok iid
         | .error re => .error (.mk (shareFailedMsg a re.message acct e)))) ∧
    (haveAdminCreds env = false →
      (createInstance env).1 =
        .error (.mk (noAdminMsg a (acctOrUnknown env) e)) ∧
      jsIncludes (noAdminMsg a (acctOrUnknown env) e) "is not accessible"
        = true ∧
      jsIncludes (noAdminMsg a (acctOrUnknown env) e) "or configure"
        = true ∧
      (createInstance env).2 =
        [.delKey (derivedKeyName env), .createKey (derivedKeyName env),
         .launch] ∧
      launchCount (afterFirstLaunch (createInstance env).2) = 0) := by
  obtain ⟨g, hg⟩ := hsg
  obtain ⟨kp, hkp'⟩ := hkp
  have hami : amiResolved env = some a := by simp [amiResolved, hcustom]
  constructor
  · intro hadmin hacct hshare
    have haou : acctOrUnknown env = acct := by
      simp [acctOrUnknown, hacct]
    have hpre : proactiveActs env a = [.share a acct] := by
      simp [proactiveActs, hcustom, hacct, hadmin]
    have htrace : (createInstance env).2 =
        [.share a acct, .delKey (derivedKeyName env),
         .createKey (derivedKeyName env), .launch, .share a acct, .launch] ∧
        (createInstance env).1 =
        (match env.retryLaunch with
         | .ok iid => .ok iid
         | .error re => .error (.mk (shareFailedMsg a re.message acct e))) := by
      cases hr : env.retryLaunch with
      | ok iid =>
        simp [createInstance, hami, hg, hkp', hfail, hnauth, hcustom,
          hadmin, hacct, hshare, hpre, hr]
      | error re =>
        simp [createInstance, hami, hg, hkp', hfail, hnauth, hcustom,
          hadmin, hacct, hshare, hpre, hr, haou]
    refine ⟨htrace.1, ?_, ?_, htrace.2⟩
    · rw [htrace.1]
      simp [afterFirstLaunch_share, afterFirstLaunch_delKey,
        afterFirstLaunch_createKey, afterFirstLaunch_launch, shareCount]
    · rw [htrace.1]
      simp [afterFirstLaunch_share, afterFirstLaunch_delKey,
        afterFirstLaunch_createKey, afterFirstLaunch_launch, launchCount]
  · intro hadmin
    have hpre : proactiveActs env a = [] := by
      cases hacct : env.accountId with
      | ok acct2 => simp [proactiveActs, hcustom, hacct, hadmin]
      | error msg => simp [proactiveActs, hcustom, hacct]
    have hmain : (createInstance env).1 =
        .error (.mk (noAdminMsg a (acctOrUnknown env) e)) ∧
        (createInstance env).2 =
        [.delKey (derivedKeyName env), .createKey (derivedKeyName env),
         .launch] := by
      simp [createInstance, hami, hg, hkp', hfail, hnauth, hcustom,
        hadmin, hpre]
    refine ⟨hmain.1, (noAdminMsg_descriptive a (acctOrUnknown env) e).1,
      (noAdminMsg_descriptive a (acctOrUnknown env) e).2, hmain.2, ?_⟩
    rw [hmain.2]
    simp [afterFirstLaunch_delKey, afterFirstLaunch_createKey,
      afterFirstLaunch_launch, launchCount]

open AWSClient in
/-- Witness for C1 at a concrete environment with admin credentials. -/
theorem c1_share_retry_once_witness :
    (createInstance c1Env).2 =
      [.share "ami-0abc" "111122223333", .delKey (derivedKeyName c1Env),
       .createKey (derivedKeyName c1Env), .launch,
       .share "ami-0abc" "111122223333", .launch] ∧
    shareCount (afterFirstLaunch (createInstance c1Env).2) = 1 ∧
    launchCount (afterFirstLaunch (createInstance c1Env).2) = 1 ∧
    (createInstance c1Env).1 =
      (match c1Env.retryLaunch with
       | .ok iid => .ok iid
       | .error re =>
         .error (.mk (shareFailedMsg "ami-0abc" re.message "111122223333"
           notAuthErr))) :=
  (c1_share_retry_once c1Env "ami-0abc" "111122223333" notAuthErr
    rfl ⟨"sg-1", rfl⟩ ⟨"PRIVATE-KEY", rfl⟩ rfl (by decide)).1
    rfl rfl rfl

/-! ## C6 — key pair cleaned up before propagating other launch errors -/

open AWSClient in
/-- C6: when the launch fails with an error that is not the
image-not-authorized case, `createInstance` deletes the just-created key
pair as its final action and propagates the original error. -/
theorem c6_delete_key_on_failure (env : CreateEnv) (ami : String)
    (e : AwsError)
    (hami : amiResolved env = some ami)
    (hsg : ∃ g, env.securityGroup = .ok g)
    (hkp : ∃ k, env.keyPair = .ok k)
    (hfail : env.firstLaunch = .error e)
    (hnauth : isNotAuthorizedError e = false) :
    (createInstance env).1 = .error (.aws e) ∧
    (createInstance env).2 =
      proactiveActs env ami ++
        [.delKey (derivedKeyName env), .createKey (derivedKeyName env),
         .launch, .delKey (derivedKeyName env)] ∧
    (createInstance env).2.getLast? = some (.delKey (derivedKeyName env)) := by
  obtain ⟨g, hg⟩ := hsg
  obtain ⟨kp, hkp'⟩ := hkp
  have hmain : (createInstance env).1 = .error (.aws e) ∧
      (createInstance env).2 =
      proactiveActs env ami ++
        [.delKey (derivedKeyName env), .createKey (derivedKeyName env),
         .launch, .delKey (derivedKeyName env)] := by
    simp [createInstance, hami, hg, hkp', hfail, hnauth]
  refine ⟨hmain.1, hmain.2, ?_⟩
  rw [hmain.2]
  have : proactiveActs env ami ++
      [.delKey (derivedKeyName env), .createKey (derivedKeyName env),
       .launch, .delKey (derivedKeyName env)] =
      (proactiveActs env ami ++
        [.delKey (derivedKeyName env), .createKey (derivedKeyName env),
         .launch]) ++ [.delKey (derivedKeyName env)] := by
    simp
  rw [this, List.getLast?_concat]

open AWSClient in
/-- Witness for C6: an unrelated capacity error on a default AMI. -/
theorem c6_delete_key_on_failure_witness :
    (createInstance c6Env).1 =
      .error (.aws ⟨"", "InsufficientInstanceCapacity",
        "Insufficient capacity.", ""⟩) ∧
    (createInstance c6Env).2 =
      proactiveActs c6Env "ami-ubuntu" ++
        [.delKey (derivedKeyName c6Env), .createKey (derivedKeyName c6Env),
         .launch, .delKey (derivedKeyName c6Env)] ∧
    (createInstance c6Env).2.getLast?
      = some (.delKey (derivedKeyName c6Env)) :=
  c6_delete_key_on_failure c6Env "ami-ubuntu"
    ⟨"", "InsufficientInstanceCapacity", "Insufficient capacity.", ""⟩
    rfl ⟨"sg-1", rfl⟩ ⟨"PRIVATE-KEY", rfl⟩ rfl (by decide)

/-! ## C3 — waitForReady on a never-appearing identifier -/

open OrgoClient in
theorem waitLoop_succ (cid : String) (query : Nat → QueryResult)
    (I r i : Nat) (le : Option String) (c elapsed q : Nat) :
    waitLoop cid query I (r + 1) i le c elapsed q =
      (match query i with
       | .ok status =>
         if status = "running" then ⟨.ok status, q + 1, elapsed⟩
         else waitLoop cid query I r (i + 1) none 0 (elapsed + I) (q + 1)
       | .err msg =>
         if notFoundCheck msg then
           if c + 1 > 10 then ⟨.error (nfFailMsg cid), q + 1, elapsed⟩
           else waitLoop cid query I r (i + 1) (some msg) (c + 1)
             (elapsed + I) (q + 1)
         else waitLoop cid query I r (i + 1) (some msg) c
           (elapsed + I) (q + 1)) := rfl

open OrgoClient in
theorem waitLoop_allNF (cid : String) (query : Nat → QueryResult) (I : Nat)
    (H : ∀ j, ∃ m, query j = .err m ∧ notFoundCheck m = true) :
    ∀ r c i le elapsed q, c ≤ 10 → 11 - c ≤ r →
      waitLoop cid query I r i le c elapsed q =
        ⟨.error (nfFailMsg cid), q + (11 - c), elapsed + (10 - c) * I⟩ := by
  intro r
  induction r with
  | zero => intro c i le elapsed q hc hr; omega
  | succ r ih =>
    intro c i le elapsed q hc hr
    obtain ⟨m, hm, hnf⟩ := H i
    by_cases h10 : c = 10
    · subst h10
      rw [waitLoop_succ, hm]
      simp [hnf]
    · have hgt : ¬ (c + 1 > 10) := by omega
      have hrec := ih (c + 1) (i + 1) (some m) (elapsed + I) (q + 1)
        (by omega) (by omega)
      rw [waitLoop_succ, hm]
      simp only [hnf, if_true, hgt, if_false]
      rw [hrec]
      have h1 : q + 1 + (11 - (c + 1)) = q + (11 - c) := by omega
      have h2 : elapsed + I + (10 - (c + 1)) * I = elapsed + (10 - c) * I := by
        have hd : 10 - c = (10 - (c + 1)) + 1 := by omega
        rw [hd, Nat.succ_mul]
        ring
      rw [h1, h2]

open OrgoClient in
/-- C3: if every status query for an identifier throws a "not found"
error, `waitForReady` with its default budget (30 attempts, 2000 ms
interval) fails with the message containing "failed to create", after 11
consecutive "not found" responses — within the 30-attempt budget — and
only after the initial 3000 ms grace delay has elapsed. -/
theorem c3_waitForReady_never_appears (cid : String)
    (query : Nat → QueryResult)
    (H : ∀ j, ∃ m, query j = .err m ∧ notFoundCheck m = true) :
    (waitForReady cid query).result = .error (nfFailMsg cid) ∧
    jsIncludes (nfFailMsg cid) "failed to create" = true ∧
    (waitForReady cid query).queries = 11 ∧
    (waitForReady cid query).queries ≤ 30 ∧
    (waitForReady cid query).elapsedMs = 3000 + 10 * 2000 ∧
    3000 ≤ (waitForReady cid query).elapsedMs := by
  have h := waitLoop_allNF cid query 2000 H 30 0 0 none 3000 0
    (by omega) (by omega)
  unfold waitForReady
  rw [h]
  refine ⟨rfl, ?_, rfl, by norm_num, rfl, by norm_num⟩
  unfold nfFailMsg jsIncludes
  rw [strData]
  apply occursIn_append
  rw [strData]
  apply occursIn_append
  decide

open OrgoClient in
/-- Witness for C3 at a query that always throws a 404. -/
theorem c3_waitForReady_never_appears_witness :
    (waitForReady "comp-404" (fun _ => .err "404")).result
      = .error (nfFailMsg "comp-404") ∧
    jsIncludes (nfFailMsg "comp-404") "failed to create" = true ∧
    (waitForReady "comp-404" (fun _ => .err "404")).queries = 11 ∧
    (waitForReady "comp-404" (fun _ => .err "404")).queries ≤ 30 ∧
    (waitForReady "comp-404" (fun _ => .err "404")).elapsedMs
      = 3000 + 10 * 2000 ∧
    3000 ≤ (waitForReady "comp-404" (fun _ => .err "404")).elapsedMs :=
  c3_waitForReady_never_appears "comp-404" (fun _ => .err "404")
    (fun _ => ⟨"404", rfl, by decide⟩)

/-! ## C10 — the two name resolvers are observationally equivalent -/

theorem resolveLoop_eq (ex : List String) (b : String) :
    ∀ fuel c u, OrgoClient.resolveLoop ex b fuel c u
      = OrgoAdapter.resolveLoop ex b fuel c u := by
  intro fuel
  induction fuel with
  | zero => intro c u; rfl
  | succ fuel ih =>
    intro c u
    simp only [OrgoClient.resolveLoop, OrgoAdapter.resolveLoop]
    split_ifs with h
    · exact ih _ _
    · rfl

/-- C10: given identical provider responses, project id/name, desired name
and clock value, the client's and the adapter's `ensureUniqueComputerName`
return the same name. -/
theorem c10_resolvers_equivalent (env : OrgoEnv) (projectId : String)
    (projectName : Option String) (desiredName : String) :
    OrgoClient.ensureUniqueComputerName env projectId projectName desiredName
      = OrgoAdapter.ensureUniqueComputerName env projectId projectName
          desiredName := by
  have hg : OrgoClient.getProjectName = OrgoAdapter.getProjectName := rfl
  simp only [OrgoClient.ensureUniqueComputerName,
    OrgoAdapter.ensureUniqueComputerName, hg, resolveLoop_eq]

/-! ## C2 — collision resolution -/

open OrgoClient in
theorem resolveLoop_succ_eq (ex : List String) (b : String)
    (fuel c : Nat) (u : String) :
    resolveLoop ex b (fuel + 1) c u =
      if ex.contains (jsToLower u) = true ∧ c < 1000 then
        resolveLoop ex b fuel (c + 1) (b ++ "-" ++ natRepr (c + 1))
      else (u, c) := rfl

open OrgoClient in
/-- If the bounded search exits with a counter below 1000, the name it
returns does not collide (case-insensitively) with any existing name. -/
theorem resolveLoop_exit_free (ex : List String) (b : String) :
    ∀ fuel c u, 1000 < fuel + c →
      (resolveLoop ex b fuel c u).2 < 1000 →
      ex.contains (jsToLower (resolveLoop ex b fuel c u).1) = false := by
  intro fuel
  induction fuel with
  | zero =>
    intro c u hfc hlt
    simp only [resolveLoop] at hlt
    omega
  | succ fuel ih =>
    intro c u hfc hlt
    by_cases h : ex.contains (jsToLower u) = true ∧ c < 1000
    · rw [resolveLoop_succ_eq, if_pos h] at hlt ⊢
      exact ih _ _ (by omega) hlt
    · rw [resolveLoop_succ_eq, if_neg h] at hlt ⊢
      rcases not_and_or.mp h with h1 | h2
      · exact Bool.not_eq_true _ |>.mp h1
      · exact absurd hlt h2

open OrgoClient in
/-- Once the counter reaches 1000 the loop stops immediately. -/
theorem resolveLoop_at_1000 (ex : List String) (b : String) :
    ∀ fuel u, resolveLoop ex b fuel 1000 u = (u, 1000) := by
  intro fuel u
  cases fuel with
  | zero => rfl
  | succ f =>
    rw [resolveLoop_succ_eq, if_neg]
    intro h
    omega

open OrgoClient in
/-- If every numeric candidate up to 999 collides, the bounded search
exhausts: it ends at counter 1000 holding the candidate `b-1000`. -/
theorem resolveLoop_exhausts (ex : List String) (b : String) :
    ∀ n c u fuel, c + n = 1000 → 1 ≤ c → 1 ≤ n → n ≤ fuel →
      ex.contains (jsToLower u) = true →
      (∀ k, 2 ≤ k → k ≤ 999 →
        ex.contains (jsToLower (b ++ "-" ++ natRepr k)) = true) →
      resolveLoop ex b fuel c u = (b ++ "-" ++ natRepr 1000, 1000) := by
  intro n
  induction n with
  | zero => intro c u fuel h1 h2 h3; omega
  | succ n ih =>
    intro c u fuel hcn hc hn hf hu hall
    obtain ⟨f, rfl⟩ : ∃ f, fuel = f + 1 := ⟨fuel - 1, by omega⟩
    rw [resolveLoop_succ_eq, if_pos ⟨hu, by omega⟩]
    cases n with
    | zero =>
      have hc999 : c = 999 := by omega
      subst hc999
      exact resolveLoop_at_1000 ex b f _
    | succ n' =>
      exact ih (c + 1) _ f (by omega) (by omega) (by omega) (by omega)
        (hall (c + 1) (by omega) (by omega)) hall

theorem exNames_mem_bot : "bot" ∈ exNames :=
  List.mem_cons_self _ _

theorem exNames_mem (k : Nat) (h1 : 1 ≤ k) (h2 : k ≤ 999) :
    ("bot-" ++ natRepr k) ∈ exNames := by
  unfold exNames
  refine List.mem_cons_of_mem _ (List.mem_map.mpr ⟨k - 1, ?_, ?_⟩)
  · exact List.mem_range.mpr (by omega)
  · have : k - 1 + 1 = k := by omega
    rw [this]

theorem botGlue (s : String) : "bot" ++ "-" ++ s = "bot-" ++ s := by
  cases s
  rfl

open OrgoClient in
/-- Reduction of `ensureUniqueComputerName` to its suffix-search loop once
the listing succeeded and the desired name collides. -/
theorem ensureUnique_reduces (env : OrgoEnv) (projectId : String)
    (projectName : Option String) (desiredName pname : String)
    (names : List String)
    (hproj : getProjectName env projectId projectName = .ok pname)
    (hcomp : env.computers pname = .ok names)
    (hdes : (names.map jsToLower).contains (jsToLower desiredName) = true) :
    ensureUniqueComputerName env projectId projectName desiredName =
      (let r := resolveLoop (names.map jsToLower)
        (jsSubstringTo 58 desiredName) 1000 1
        (desiredName ++ "-" ++ natRepr 1)
       if r.2 ≥ 1000 then
         jsSubstringTo 58 desiredName ++ "-" ++ natRepr env.now
       else r.1) := by
  unfold ensureUniqueComputerName
  rw [hproj]
  simp only [hcomp]
  simp [hdes]
  intro hall
  exfalso
  obtain ⟨x, hx, hxe⟩ := List.mem_map.mp (memOfContains hdes)
  exact hall x hx hxe

open OrgoClient in
/-- C2 (amended): when the listing succeeds, the desired name collides
case-insensitively, and the bounded numeric search exits below its
1000-counter budget, the resolver returns a name distinct
(case-insensitively) from every existing name and different from the
desired name. -/
theorem c2_unique_when_search_not_exhausted (env : OrgoEnv)
    (projectId : String) (projectName : Option String)
    (desiredName pname : String) (names : List String)
    (hproj : getProjectName env projectId projectName = .ok pname)
    (hcomp : env.computers pname = .ok names)
    (hdes : (names.map jsToLower).contains (jsToLower desiredName) = true)
    (hbound : (resolveLoop (names.map jsToLower)
        (jsSubstringTo 58 desiredName) 1000 1
        (desiredName ++ "-" ++ natRepr 1)).2 < 1000) :
    (names.map jsToLower).contains
      (jsToLower (ensureUniqueComputerName env projectId projectName
        desiredName)) = false ∧
    (∀ n ∈ names,
      ensureUniqueComputerName env projectId projectName desiredName ≠ n) ∧
    ensureUniqueComputerName env projectId projectName desiredName
      ≠ desiredName := by
  have hres : ensureUniqueComputerName env projectId projectName desiredName
      = (resolveLoop (names.map jsToLower) (jsSubstringTo 58 desiredName)
          1000 1 (desiredName ++ "-" ++ natRepr 1)).1 := by
    rw [ensureUnique_reduces env projectId projectName desiredName pname
      names hproj hcomp hdes]
    simp only []
    rw [if_neg (by omega)]
  have hfree := resolveLoop_exit_free (names.map jsToLower)
    (jsSubstringTo 58 desiredName) 1000 1 (desiredName ++ "-" ++ natRepr 1)
    (by omega) hbound
  rw [hres]
  refine ⟨hfree, ?_, ?_⟩
  · intro n hn heq
    have hmem : jsToLower ((resolveLoop (names.map jsToLower)
        (jsSubstringTo 58 desiredName) 1000 1
        (desiredName ++ "-" ++ natRepr 1)).1) ∈ names.map jsToLower := by
      rw [heq]
      exact List.mem_map_of_mem _ hn
    rw [containsOfMem hmem] at hfree
    cases hfree
  · intro heq
    rw [heq] at hfree
    rw [hfree] at hdes
    cases hdes

open OrgoClient in
/-- Witness for the amended C2: `bot` collides with `bot`, `bot-1`; the
search returns `bot-2`, distinct from everything and from `bot`. -/
theorem c2_unique_when_search_not_exhausted_witness :
    ((["bot", "bot-1"].map jsToLower).contains
      (jsToLower (ensureUniqueComputerName smallEnv "" (some "proj") "bot"))
        = false) ∧
    (∀ n ∈ ["bot", "bot-1"],
      ensureUniqueComputerName smallEnv "" (some "proj") "bot" ≠ n) ∧
    ensureUniqueComputerName smallEnv "" (some "proj") "bot" ≠ "bot" :=
  c2_unique_when_search_not_exhausted smallEnv "" (some "proj") "bot"
    "proj" ["bot", "bot-1"] rfl rfl (by decide) (by decide)

open OrgoClient in
/-- C2 (counterexample to the frozen claim): in a project holding `bot`,
`bot-1`, ..., `bot-999`, the desired name `bot` is present, the numeric
search exhausts, and the timestamp fallback (clock = 7) returns `bot-7` —
a name equal to an existing computer name, not distinct from every
existing name. -/
theorem c2_counterexample :
    "bot" ∈ exNames ∧
    ensureUniqueComputerName exEnv "" (some "proj") "bot" ∈ exNames := by
  refine ⟨exNames_mem_bot, ?_⟩
  have hdes : (exNames.map jsToLower).contains (jsToLower "bot") = true :=
    containsOfMem (List.mem_map_of_mem _ exNames_mem_bot)
  have hred := ensureUnique_reduces exEnv "" (some "proj") "bot" "proj"
    exNames rfl rfl hdes
  have hbase : jsSubstringTo 58 "bot" = "bot" := by decide
  have hcand : ∀ k, 1 ≤ k → k ≤ 999 →
      (exNames.map jsToLower).contains
        (jsToLower ("bot" ++ "-" ++ natRepr k)) = true := by
    intro k h1 h2
    rw [botGlue]
    exact containsOfMem (List.mem_map_of_mem _ (exNames_mem k h1 h2))
  have hloop := resolveLoop_exhausts (exNames.map jsToLower) "bot" 999 1
    ("bot" ++ "-" ++ natRepr 1) 1000 (by omega) (by omega) (by omega)
    (by omega) (hcand 1 (by omega) (by omega))
    (fun k hk1 hk2 => hcand k (by omega) hk2)
  rw [hred, hbase]
  simp only [hloop]
  rw [if_pos (by omega)]
  rw [botGlue]
  exact exNames_mem 7 (by omega) (by omega)

/-! ## C9 — sanitizeName idempotence -/

theorem noAdj_cons_iff (c : Char) (l : List Char) :
    noAdjHyphen (c :: l) = true ↔
      (¬ (c = '-' ∧ l.head? = some '-')) ∧ noAdjHyphen l = true := by
  cases l with
  | nil => simp [noAdjHyphen]
  | cons d r =>
    simp only [noAdjHyphen, Bool.and_eq_true, Bool.not_eq_true',
      Bool.and_eq_false_iff, beq_eq_false_iff_ne, ne_eq, List.head?_cons,
      Option.some.injEq]
    constructor
    · rintro ⟨h1, h2⟩
      exact ⟨fun ⟨hc, hd⟩ => by rcases h1 with h | h <;> [exact h hc; exact h hd],
        h2⟩
    · rintro ⟨h1, h2⟩
      refine ⟨?_, h2⟩
      by_cases hc : c = '-'
      · exact Or.inr (fun hd => h1 ⟨hc, hd⟩)
      · exact Or.inl hc

theorem noAdj_tail (c : Char) (l : List Char)
    (h : noAdjHyphen (c :: l) = true) : noAdjHyphen l = true :=
  (noAdj_cons_iff c l).mp h |>.2

theorem noAdj_tail' (l : List Char) (h : noAdjHyphen l = true) :
    noAdjHyphen l.tail = true := by
  cases l with
  | nil => rfl
  | cons c r => exact noAdj_tail c r h

theorem head?_dropLast (l : List Char) (a : Char)
    (h : l.dropLast.head? = some a) : l.head? = some a := by
  match l with
  | [] => cases h
  | [x] => cases h
  | x :: y :: r => exact h

theorem head?_take (n : Nat) (l : List Char) (a : Char)
    (h : (l.take n).head? = some a) : l.head? = some a := by
  cases n with
  | zero => cases h
  | succ n =>
    cases l with
    | nil => cases h
    | cons c r => exact h

theorem noAdj_dropLast (l : List Char) (h : noAdjHyphen l = true) :
    noAdjHyphen l.dropLast = true := by
  induction l with
  | nil => rfl
  | cons c rest ih =>
    cases rest with
    | nil => rfl
    | cons d r =>
      show noAdjHyphen (c :: (d :: r).dropLast) = true
      rw [noAdj_cons_iff]
      refine ⟨?_, ih (noAdj_tail c _ h)⟩
      rintro ⟨hc, hd⟩
      have := head?_dropLast (d :: r) '-' hd
      exact ((noAdj_cons_iff c (d :: r)).mp h).1 ⟨hc, this⟩

theorem noAdj_take (n : Nat) (l : List Char) (h : noAdjHyphen l = true) :
    noAdjHyphen (l.take n) = true := by
  induction l generalizing n with
  | nil => simp [List.take_nil]; cases n <;> rfl
  | cons c rest ih =>
    cases n with
    | zero => rfl
    | succ n =>
      show noAdjHyphen (c :: rest.take n) = true
      rw [noAdj_cons_iff]
      refine ⟨?_, ih n (noAdj_tail c _ h)⟩
      rintro ⟨hc, hd⟩
      exact ((noAdj_cons_iff c rest).mp h).1
        ⟨hc, head?_take n rest '-' hd⟩

theorem mem_replaceRunsAux (p : Char → Bool) (c : Char) :
    ∀ (b : Bool) (l : List Char), c ∈ replaceRunsAux p b l →
      c = '-' ∨ c ∈ l := by
  intro b l
  induction l generalizing b with
  | nil => intro h; cases h
  | cons d r ih =>
    intro h
    simp only [replaceRunsAux] at h
    by_cases hp : p d
    · rw [if_pos hp] at h
      by_cases hb : b
      · subst hb
        simp only [if_pos rfl] at h
        rcases ih true h with h' | h'
        · exact Or.inl h'
        · exact Or.inr (List.mem_cons_of_mem _ h')
      · rw [Bool.not_eq_true] at hb
        subst hb
        simp only [Bool.false_eq_true, if_false] at h
        rcases List.mem_cons.mp h with h | h
        · exact Or.inl h
        · rcases ih true h with h' | h'
          · exact Or.inl h'
          · exact Or.inr (List.mem_cons_of_mem _ h')
    · rw [if_neg hp] at h
      rcases List.mem_cons.mp h with h | h
      · subst h
        exact Or.inr (List.mem_cons_self _ _)
      · rcases ih false h with h' | h'
        · exact Or.inl h'
        · exact Or.inr (List.mem_cons_of_mem _ h')

theorem replaceRunsAux_no_p (p : Char → Bool) :
    ∀ l : List Char, (∀ c ∈ l, p c = false) →
      replaceRunsAux p false l = l := by
  intro l
  induction l with
  | nil => intro _; rfl
  | cons d r ih =>
    intro h
    simp only [replaceRunsAux, h d (List.mem_cons_self _ _),
      Bool.false_eq_true, if_false]
    rw [ih (fun c hc => h c (List.mem_cons_of_mem _ hc))]

theorem isHyphen_eq (c : Char) : isHyphen c = true ↔ c = '-' := by
  simp [isHyphen]

theorem collapse_noAdj (l : List Char) :
    noAdjHyphen (replaceRunsAux isHyphen false l) = true ∧
    noAdjHyphen (replaceRunsAux isHyphen true l) = true ∧
    (replaceRunsAux isHyphen true l).head? ≠ some '-' := by
  induction l with
  | nil => exact ⟨rfl, rfl, by simp [replaceRunsAux]⟩
  | cons c r ih =>
    by_cases hp : isHyphen c = true
    · have hc : c = '-' := (isHyphen_eq c).mp hp
      refine ⟨?_, ?_, ?_⟩
      · show noAdjHyphen (if isHyphen c = true then
          (if false = true then replaceRunsAux isHyphen true r
           else '-' :: replaceRunsAux isHyphen true r)
          else c :: replaceRunsAux isHyphen false r) = true
        rw [if_pos hp]
        simp only [Bool.false_eq_true, if_false]
        rw [noAdj_cons_iff]
        exact ⟨fun ⟨_, hd⟩ => ih.2.2 hd, ih.2.1⟩
      · show noAdjHyphen (if isHyphen c = true then
          (if true = true then replaceRunsAux isHyphen true r
           else '-' :: replaceRunsAux isHyphen true r)
          else c :: replaceRunsAux isHyphen false r) = true
        rw [if_pos hp, if_pos rfl]
        exact ih.2.1
      · show (if isHyphen c = true then
          (if true = true then replaceRunsAux isHyphen true r
           else '-' :: replaceRunsAux isHyphen true r)
          else c :: replaceRunsAux isHyphen false r).head? ≠ some '-'
        rw [if_pos hp, if_pos rfl]
        exact ih.2.2
    · have hc : ¬ c = '-' := fun h => hp ((isHyphen_eq c).mpr h)
      refine ⟨?_, ?_, ?_⟩
      · show noAdjHyphen (if isHyphen c = true then
          (if false = true then replaceRunsAux isHyphen true r
           else '-' :: replaceRunsAux isHyphen true r)
          else c :: replaceRunsAux isHyphen false r) = true
        rw [if_neg hp, noAdj_cons_iff]
        exact ⟨fun ⟨h1, _⟩ => hc h1, ih.1⟩
      · show noAdjHyphen (if isHyphen c = true then
          (if true = true then replaceRunsAux isHyphen true r
           else '-' :: replaceRunsAux isHyphen true r)
          else c :: replaceRunsAux isHyphen false r) = true
        rw [if_neg hp, noAdj_cons_iff]
        exact ⟨fun ⟨h1, _⟩ => hc h1, ih.1⟩
      · show (if isHyphen c = true then
          (if true = true then replaceRunsAux isHyphen true r
           else '-' :: replaceRunsAux isHyphen true r)
          else c :: replaceRunsAux isHyphen false r).head? ≠ some '-'
        rw [if_neg hp]
        simp only [List.head?_cons, ne_eq, Option.some.injEq]
        exact hc

theorem collapse_id (l : List Char) (h : noAdjHyphen l = true) :
    replaceRunsAux isHyphen false l = l ∧
    (l.head? ≠ some '-' → replaceRunsAux isHyphen true l = l) := by
  induction l with
  | nil => exact ⟨rfl, fun _ => rfl⟩
  | cons c r ih =>
    obtain ⟨ih1, ih2⟩ := ih (noAdj_tail c r h)
    constructor
    · by_cases hp : isHyphen c = true
      · have hc : c = '-' := (isHyphen_eq c).mp hp
        show (if isHyphen c = true then
          (if false = true then replaceRunsAux isHyphen true r
           else '-' :: replaceRunsAux isHyphen true r)
          else c :: replaceRunsAux isHyphen false r) = c :: r
        rw [if_pos hp]
        simp only [Bool.false_eq_true, if_false]
        have hr : r.head? ≠ some '-' := by
          intro hd
          exact ((noAdj_cons_iff c r).mp h).1 ⟨hc, hd⟩
        rw [ih2 hr, hc]
      · show (if isHyphen c = true then
          (if false = true then replaceRunsAux isHyphen true r
           else '-' :: replaceRunsAux isHyphen true r)
          else c :: replaceRunsAux isHyphen false r) = c :: r
        rw [if_neg hp, ih1]
    · intro hh
      have hc : ¬ c = '-' := by
        simp only [List.head?_cons, ne_eq, Option.some.injEq] at hh
        exact hh
      have hp : ¬ isHyphen c = true := fun hx => hc ((isHyphen_eq c).mp hx)
      show (if isHyphen c = true then
        (if true = true then replaceRunsAux isHyphen true r
         else '-' :: replaceRunsAux isHyphen true r)
        else c :: replaceRunsAux isHyphen false r) = c :: r
      rw [if_neg hp, ih1]

theorem trim_id (l : List Char) (h1 : l.head? ≠ some '-')
    (h2 : l.getLast? ≠ some '-') : trimEdgeHyphens l = l := by
  unfold trimEdgeHyphens
  simp only [if_neg h1, if_neg h2]

theorem trim_head (l : List Char) (h : noAdjHyphen l = true) :
    (trimEdgeHyphens l).head? ≠ some '-' := by
  unfold trimEdgeHyphens
  have hl1 : (if l.head? = some '-' then l.tail else l).head? ≠ some '-' := by
    by_cases hh : l.head? = some '-'
    · rw [if_pos hh]
      cases l with
      | nil => cases hh
      | cons c r =>
        simp only [List.head?_cons, Option.some.injEq] at hh
        intro hd
        exact ((noAdj_cons_iff c r).mp h).1 ⟨hh, hd⟩
    · rw [if_neg hh]
      exact hh
  by_cases hg : (if l.head? = some '-' then l.tail else l).getLast? = some '-'
  · rw [if_pos hg]
    intro hd
    exact hl1 (head?_dropLast _ '-' hd)
  · rw [if_neg hg]
    exact hl1

theorem trim_noAdj (l : List Char) (h : noAdjHyphen l = true) :
    noAdjHyphen (trimEdgeHyphens l) = true := by
  unfold trimEdgeHyphens
  have hl1 : noAdjHyphen (if l.head? = some '-' then l.tail else l) = true := by
    by_cases hh : l.head? = some '-'
    · rw [if_pos hh]; exact noAdj_tail' l h
    · rw [if_neg hh]; exact h
  by_cases hg : (if l.head? = some '-' then l.tail else l).getLast? = some '-'
  · rw [if_pos hg]
    exact noAdj_dropLast _ hl1
  · rw [if_neg hg]
    exact hl1

theorem mem_trim (l : List Char) (c : Char)
    (h : c ∈ trimEdgeHyphens l) : c ∈ l := by
  unfold trimEdgeHyphens at h
  have step : ∀ m : List Char, c ∈ (if m.getLast? = some '-'
      then m.dropLast else m) → c ∈ m := by
    intro m hm
    by_cases hg : m.getLast? = some '-'
    · rw [if_pos hg] at hm
      exact List.mem_of_mem_dropLast hm
    · rwa [if_neg hg] at hm
  have h1 := step _ h
  by_cases hh : l.head? = some '-'
  · rw [if_pos hh] at h1
    exact List.mem_of_mem_tail h1
  · rwa [if_neg hh] at h1

theorem toLower_allowed (c : Char) (h : isAllowed c = true) :
    toLowerChar c = c := by
  simp only [isAllowed, Bool.or_eq_true, Bool.and_eq_true,
    decide_eq_true_eq] at h
  unfold toLowerChar
  rw [if_neg]
  omega

theorem map_toLower_id (l : List Char)
    (h : ∀ c ∈ l, isAllowed c = true) : l.map toLowerChar = l := by
  induction l with
  | nil => rfl
  | cons c r ih =>
    simp only [List.map_cons]
    rw [toLower_allowed c (h c (List.mem_cons_self _ _)),
      ih (fun x hx => h x (List.mem_cons_of_mem _ hx))]

theorem allowed_not_ws (c : Char) (h : isAllowed c = true) :
    isSpaceUnderscore c = false := by
  simp only [isAllowed, Bool.or_eq_true, Bool.and_eq_true,
    decide_eq_true_eq] at h
  rw [Bool.eq_false_iff]
  intro hw
  simp only [isSpaceUnderscore, Bool.or_eq_true, Bool.and_eq_true,
    decide_eq_true_eq] at hw
  omega

theorem sanitize_mem_allowed (l : List Char) :
    ∀ c ∈ sanitizeChars l, isAllowed c = true := by
  intro c hc
  unfold sanitizeChars at hc
  have hc1 := List.mem_of_mem_take hc
  have hc2 := mem_trim _ _ hc1
  rcases mem_replaceRunsAux isHyphen c false _ hc2 with h | h
  · subst h; decide
  · exact List.of_mem_filter h

theorem sanitize_noAdj (l : List Char) :
    noAdjHyphen (sanitizeChars l) = true := by
  unfold sanitizeChars
  exact noAdj_take _ _ (trim_noAdj _ (collapse_noAdj _).1)

theorem sanitize_head (l : List Char) :
    (sanitizeChars l).head? ≠ some '-' := by
  unfold sanitizeChars
  intro h
  exact trim_head _ (collapse_noAdj _).1 (head?_take _ _ '-' h)

theorem sanitize_len (l : List Char) : (sanitizeChars l).length ≤ 63 := by
  unfold sanitizeChars
  exact List.length_take_le _ _

theorem sanitizeChars_fixpoint (t : List Char)
    (hall : ∀ c ∈ t, isAllowed c = true)
    (hna : noAdjHyphen t = true)
    (hh : t.head? ≠ some '-')
    (hl : t.getLast? ≠ some '-')
    (hlen : t.length ≤ 63) :
    sanitizeChars t = t := by
  unfold sanitizeChars replaceRuns
  rw [map_toLower_id t hall,
    replaceRunsAux_no_p isSpaceUnderscore t
      (fun c hc => allowed_not_ws c (hall c hc)),
    List.filter_eq_self.mpr hall,
    (collapse_id t hna).1,
    trim_id t hh hl]
  exact List.take_of_length_le hlen

/-- C9 (amended): the output of `sanitizeName` never starts with a hyphen,
and on every input whose output does not end with a hyphen (the trailing
hyphen can only arise when the final 63-character truncation cuts right
after a hyphen), `sanitizeName` is idempotent. -/
theorem c9_sanitizeName_idem (s : String) :
    (sanitizeName s).data.head? ≠ some '-' ∧
    ((sanitizeName s).data.getLast? ≠ some '-' →
      sanitizeName (sanitizeName s) = sanitizeName s) := by
  constructor
  · exact sanitize_head s.data
  · intro hl
    show (⟨sanitizeChars (sanitizeChars s.data)⟩ : String)
      = ⟨sanitizeChars s.data⟩
    exact congrArg String.mk
      (sanitizeChars_fixpoint _ (sanitize_mem_allowed _) (sanitize_noAdj _)
        (sanitize_head _) hl (sanitize_len _))

/-- Witness for the amended C9 at a concrete input. -/
theorem c9_sanitizeName_idem_witness :
    (sanitizeName "My_Bot!").data.getLast? ≠ some '-' ∧
    sanitizeName (sanitizeName "My_Bot!") = sanitizeName "My_Bot!" :=
  ⟨by decide, (c9_sanitizeName_idem "My_Bot!").2 (by decide)⟩

/-- C9 (counterexample to the frozen claim): on 62 `a`s followed by
`-bb`, the sanitized name is 62 `a`s followed by a trailing hyphen (the
truncation cut right after the hyphen), so the output ends with a hyphen
and a second application differs from the first. -/
theorem c9_counterexample :
    sanitizeName (sanitizeName ⟨List.replicate 62 'a' ++ ['-', 'b', 'b']⟩)
      ≠ sanitizeName ⟨List.replicate 62 'a' ++ ['-', 'b', 'b']⟩ ∧
    (sanitizeName ⟨List.replicate 62 'a' ++ ['-', 'b', 'b']⟩).data.getLast?
      = some '-' := by
  constructor
  · decide
  · decide

end Clawd
